import Mathlib

/-!
Verification of the musicLibrary client against its specification.

The development shallowly embeds the stateful JavaScript stores of the
repository as pure Lean functions over explicit state values:

* `QueueManager` (the queue store singleton) — `QueueManager.add`,
  `playNow`, `remove`, `clear`, `next`, `previous`, `getState`, with the
  `notify()` side effect modelled as the list of state snapshots handed to
  subscribers by the call.
* `SearchManager` (search/filter store) — `executeSearch` with the awaited
  collaborator query outcome passed in explicitly, the 300 ms debounce of
  `setSearchTerm`/`debouncedSearch` as a timed event model, and the
  suggestion subsystem (`getSuggestions`) as an event-step model covering
  the debounce timer, the in-flight fetch and the stale-result check.
* `ThemeManager.getColor` over the palette data of `src/themes/themes.js`,
  with JavaScript property access on the nested palette values embedded
  with boxing and the prototype chain accounted for: own palette entries
  resolve, the boxed-string `length` property resolves to the UTF-16
  length, access on `null` throws, access on a key that avoids every
  built-in property name yields the own entry or `undefined`, and any
  other built-in read is left unspecified rather than guessed.
-/

namespace MusicLib

/-! ## Queue store (`QueueManager`, src/unnamed/part_002) -/

/-- A queue item: a JavaScript object with a `url` property (the identity
key used by the queue) and its remaining own enumerable properties,
embedded as an association list (first binding wins on lookup). -/
structure Item where
  url : String
  fields : List (String × String)
deriving Repr, DecidableEq

/-- First-match association-list lookup, the embedding of reading a
property off a JavaScript object literal. -/
def lookupField : List (String × String) → String → Option String
  | [], _ => none
  | (k, v) :: rest, key => if k = key then some v else lookupField rest key

/-- `{ ...old, ...new }`: every own property of `new` wins, properties of
`old` absent from `new` are kept.  Used by `playNow` to merge metadata. -/
def mergeItems (old new : Item) : Item :=
  { url := new.url
    fields := old.fields.filter (fun p => (lookupField new.fields p.1).isNone) ++ new.fields }

/-- The mutable state of the `QueueManager` singleton: `this.queue` and
`this.currentIndex` (`-1` means no selection, as in the constructor). -/
structure QState where
  queue : List Item
  currentIndex : Int
deriving Repr, DecidableEq

/-- The constructor state: empty queue, `currentIndex = -1`. -/
def initialQState : QState := { queue := [], currentIndex := -1 }

/-- The value returned by `getState()` and handed to every subscriber by
`notify()`: a copy of the queue, the current index, and `currentItem`
(`null` embedded as `none` when the index is out of range). -/
structure QSnapshot where
  queue : List Item
  currentIndex : Int
  currentItem : Option Item
deriving Repr, DecidableEq

/-- `QueueManager.getState()`. -/
def getState (s : QState) : QSnapshot :=
  { queue := s.queue
    currentIndex := s.currentIndex
    currentItem :=
      if 0 ≤ s.currentIndex ∧ s.currentIndex < s.queue.length then
        s.queue[s.currentIndex.toNat]?
      else none }

/-- `this.queue.findIndex(i => i.url === url)`, with `none` for `-1`. -/
def findIdxUrl : List Item → String → Option Nat
  | [], _ => none
  | x :: rest, url =>
    if x.url = url then some 0
    else (findIdxUrl rest url).map (· + 1)

/-- A default used only to totalise in-bounds JavaScript indexing. -/
def dummyItem : Item := { url := "", fields := [] }

/-- `QueueManager.add(item)`.  The argument is `Option Item` so that a
`null`/`undefined` argument is representable; `!item.url` is the
empty-string test.  The second component is the list of snapshots
emitted to subscribers by the call (via `notify()`). -/
def add (s : QState) (item : Option Item) : QState × List QSnapshot :=
  match item with
  | none => (s, [])
  | some it =>
    if it.url = "" then (s, [])
    else if s.queue.any (fun i => i.url == it.url) then (s, [])
    else
      let s' : QState := { s with queue := s.queue ++ [it] }
      (s', [getState s'])

/-- `QueueManager.playNow(item)`.  If an item with the same URL exists,
merge the new metadata onto it (`{ ...existing, ...item }`), move the
merged item to the front keeping the other items in order
(`filter((_, index) => index !== existingIndex)`), and set
`currentIndex = 0`; otherwise prepend the item and set
`currentIndex = 0`. -/
def playNow (s : QState) (item : Option Item) : QState × List QSnapshot :=
  match item with
  | none => (s, [])
  | some it =>
    if it.url = "" then (s, [])
    else
      match findIdxUrl s.queue it.url with
      | some i =>
        let itemToPlay := mergeItems (s.queue.getD i dummyItem) it
        let remainingItems := s.queue.eraseIdx i
        let s' : QState := { queue := itemToPlay :: remainingItems, currentIndex := 0 }
        (s', [getState s'])
      | none =>
        let s' : QState := { queue := it :: s.queue, currentIndex := 0 }
        (s', [getState s'])

/-- `QueueManager.remove(url)`: delete the entry at the found index and
rebalance `currentIndex` exactly as the source does. -/
def remove (s : QState) (url : String) : QState × List QSnapshot :=
  match findIdxUrl s.queue url with
  | none => (s, [])
  | some index =>
    let newQueue := s.queue.eraseIdx index
    let newIndex : Int :=
      if s.currentIndex > (index : Int) then s.currentIndex - 1
      else if s.currentIndex = (index : Int) then
        if newQueue.length ≠ 0 then min (index : Int) ((newQueue.length : Int) - 1)
        else -1
      else s.currentIndex
    let s' : QState := { queue := newQueue, currentIndex := newIndex }
    (s', [getState s'])

/-- `QueueManager.clear()`. -/
def clear (s : QState) : QState × List QSnapshot :=
  let s' : QState := { queue := [], currentIndex := -1 }
  (s', [getState s'])

/-- `QueueManager.next()`: guarded increment, `notify` only when the guard
passes. -/
def next (s : QState) : QState × List QSnapshot :=
  if s.queue.length > 0 ∧ s.currentIndex < (s.queue.length : Int) - 1 then
    let s' : QState := { s with currentIndex := s.currentIndex + 1 }
    (s', [getState s'])
  else (s, [])

/-- `QueueManager.previous()`: guarded decrement, `notify` only when the
guard passes. -/
def previous (s : QState) : QState × List QSnapshot :=
  if s.currentIndex > 0 then
    let s' : QState := { s with currentIndex := s.currentIndex - 1 }
    (s', [getState s'])
  else (s, [])

/-- One queue-store operation call, with its argument. -/
inductive QOp where
  | add (item : Option Item)
  | playNow (item : Option Item)
  | remove (url : String)
  | clear
  | next
  | previous
deriving Repr

/-- Run one operation, returning the new state and the snapshots emitted
to subscribers. -/
def stepN (s : QState) : QOp → QState × List QSnapshot
  | .add item => add s item
  | .playNow item => playNow s item
  | .remove url => remove s url
  | .clear => clear s
  | .next => next s
  | .previous => previous s

/-- The state transition of one operation. -/
def step (s : QState) (op : QOp) : QState := (stepN s op).1

/-- Run a sequence of operations from the constructor state. -/
def runOps (ops : List QOp) : QState := ops.foldl step initialQState

/-- The URLs stored in the queue, in order. -/
def urls (s : QState) : List String := s.queue.map Item.url

/-- No-duplicate invariant: no two queue entries share a URL. -/
def NoDupUrls (s : QState) : Prop := (s.queue.map Item.url).Nodup

/-- Index-bounds invariant: `currentIndex` is `-1` or in range. -/
def IndexInBounds (s : QState) : Prop :=
  s.currentIndex = -1 ∨ (0 ≤ s.currentIndex ∧ s.currentIndex < (s.queue.length : Int))

/-- Guard characterization: the calls that reach `this.notify()` in the
source of each queue operation. -/
def notifies (s : QState) : QOp → Bool
  | .add item =>
    match item with
    | none => false
    | some it => !(it.url == "") && !(s.queue.any (fun i => i.url == it.url))
  | .playNow item =>
    match item with
    | none => false
    | some it => !(it.url == "")
  | .remove url => (findIdxUrl s.queue url).isSome
  | .clear => true
  | .next => decide (s.queue.length > 0 ∧ s.currentIndex < (s.queue.length : Int) - 1)
  | .previous => decide (s.currentIndex > 0)

/-- Concrete items used in the worked examples of the spec. -/
def itemA : Item := { url := "a", fields := [] }

def itemB : Item := { url := "b", fields := [] }

def itemC : Item := { url := "c", fields := [] }

/-! ## Search store (`SearchManager`, src/src/services/SearchManager.js) -/

/-- A catalog song row; its columns are owned by the Catalog Service and
opaque to the search store, which only stores the rows it received. -/
structure Song where
  id : String
deriving Repr, DecidableEq, Inhabited

/-- A search suggestion `{ type, value }` (`type` is a Lean keyword, so the
field is called `kind`). -/
structure Suggestion where
  kind : String
  value : String
deriving Repr, DecidableEq

/-- `this.state.filters`. -/
structure SearchFilters where
  tags : List String
  artists : List String
  platforms : List String
  dateRange : Option (String × String)
deriving Repr, DecidableEq

/-- The observable `this.state` of `SearchManager` (pagination omitted:
only read by `buildQuery`, whose outcome is an explicit input here). -/
structure SearchState where
  searchTerm : String
  isLoading : Bool
  isInitialLoad : Bool
  filters : SearchFilters
  results : List Song
  totalCount : Nat
  error : Option String
  searchHistory : List String
  suggestions : List Suggestion
deriving Repr, DecidableEq

/-- The manager instance fields touched by `executeSearch`: the observable
state plus `this.lastHistoryTerm`. -/
structure SearchMgr where
  state : SearchState
  lastHistoryTerm : String
deriving Repr, DecidableEq

/-- The outcome of awaiting the collaborator query built by `buildQuery()`:
a response with `error` null (`ok`, `data` and `count` possibly null), a
response carrying an error object (`dbError`), or the `await` throwing
(`thrown`). -/
inductive QueryOutcome where
  | ok (data : Option (List Song)) (count : Option Nat)
  | dbError (message : String)
  | thrown
deriving Repr, DecidableEq

def failedSearchMessage : String := "Failed to search songs. Please try again."

def unexpectedSearchMessage : String := "An unexpected error occurred during search."

/-- `addToSearchHistory(term)`: drop existing copies, push to the front,
keep 10, notify.  (The `localStorage` write is an external side effect
with no bearing on the store state.)  Returns the new state and the
snapshots handed to subscribers. -/
def addToSearchHistory (s : SearchState) (term : String) :
    SearchState × List SearchState :=
  let trimmed := term.trim
  if trimmed = "" then (s, [])
  else
    let filtered := s.searchHistory.filter (fun item => item != trimmed)
    let s' := { s with searchHistory := (trimmed :: filtered).take 10 }
    (s', [s'])

/-- `executeSearch(isInitialLoad)`: the `try` block sets the loading flags
and clears `error`, notifies, awaits the query (its outcome is the
explicit `outcome` argument), fills `results`/`totalCount` or the error
branch, optionally records history, and the `finally` block clears the
loading flags and notifies.  Returns the new manager and the snapshots
handed to subscribers, in order. -/
def executeSearch (m : SearchMgr) (isInitialLoad : Bool)
    (outcome : QueryOutcome) : SearchMgr × List SearchState :=
  let s1 : SearchState :=
    { m.state with isInitialLoad := isInitialLoad, isLoading := true, error := none }
  match outcome with
  | .dbError _ =>
    let s2 := { s1 with error := some failedSearchMessage, results := [] }
    let s3 := { s2 with isLoading := false, isInitialLoad := false }
    ({ m with state := s3 }, [s1, s3])
  | .thrown =>
    let s2 := { s1 with error := some unexpectedSearchMessage, results := [] }
    let s3 := { s2 with isLoading := false, isInitialLoad := false }
    ({ m with state := s3 }, [s1, s3])
  | .ok data count =>
    let s2 := { s1 with results := data.getD [], totalCount := count.getD 0,
                        error := none }
    let term := s2.searchTerm.trim
    if term ≠ "" ∧ term ≠ m.lastHistoryTerm then
      let (s2h, nsh) := addToSearchHistory s2 term
      let s3 := { s2h with isLoading := false, isInitialLoad := false }
      ({ state := s3, lastHistoryTerm := term }, s1 :: nsh ++ [s3])
    else
      let s3 := { s2 with isLoading := false, isInitialLoad := false }
      ({ m with state := s3 }, [s1, s3])

/-! ### Debounced search execution (`setSearchTerm` / `debouncedSearch`)

Timed model of the single-threaded event loop: `setSearchTerm` calls
arrive at absolute times (ms); a timer callback scheduled by
`debouncedSearch` runs as soon as the loop is free after its deadline, so
processing an event at time `t` first fires a pending timer whose
deadline is `≤ t`.  The model records the terms for which the scheduled
`executeSearch()` callback ran (the store notifications of
`setSearchTerm` itself are independent of the debounce and not tracked
here). -/

/-- `DEFAULT_SEARCH_CONFIG.debounceDelay`. -/
def debounceDelay : Nat := 300

structure DebounceState where
  searchTerm : String
  searchTimeout : Option Nat
  executed : List String
deriving Repr, DecidableEq

def initialDebounceState : DebounceState :=
  { searchTerm := "", searchTimeout := none, executed := [] }

/-- Run the scheduled `executeSearch` callback if its deadline has passed:
it reads `this.state.searchTerm` at run time. -/
def fireDue (m : DebounceState) (now : Nat) : DebounceState :=
  match m.searchTimeout with
  | some deadline =>
    if deadline ≤ now then
      { m with searchTimeout := none, executed := m.executed ++ [m.searchTerm] }
    else m
  | none => m

/-- `setSearchTerm(term)` at time `now`: store the term, then
`debouncedSearch()` clears any pending timeout and schedules
`executeSearch` at `now + 300`. -/
def setSearchTermAt (m : DebounceState) (now : Nat) (term : String) :
    DebounceState :=
  let m1 := fireDue m now
  { m1 with searchTerm := term, searchTimeout := some (now + debounceDelay) }

/-- After the last call the event loop goes quiet, so a pending timer
eventually fires. -/
def flushTimers (m : DebounceState) : DebounceState :=
  match m.searchTimeout with
  | some _ => { m with searchTimeout := none, executed := m.executed ++ [m.searchTerm] }
  | none => m

/-- Process a chronological list of `(time, term)` calls from the
constructor state, then let the pending timer fire. -/
def runSetSearchTerms (events : List (Nat × String)) : DebounceState :=
  flushTimers (events.foldl (fun m e => setSearchTermAt m e.1 e.2) initialDebounceState)

/-- The claim's timing hypothesis: consecutive calls are in chronological
order, each fired less than 300 ms after the previous one. -/
def RapidFire : List (Nat × String) → Prop
  | [] => True
  | [_] => True
  | (t1, _) :: (t2, s2) :: rest =>
    t1 ≤ t2 ∧ t2 < t1 + debounceDelay ∧ RapidFire ((t2, s2) :: rest)

/-! ### Suggestions (`getSuggestions`)

Event model of the suggestion subsystem: a `getSuggestions` call runs
synchronously up to scheduling its debounce timer; `fire` is the timer
callback starting the network fetch; `complete` is the fetch resolving
with the suggestion list derived from the fetched rows.  `notified`
collects the suggestion lists observed by subscribers. -/

structure SuggState where
  suggestions : List Suggestion
  lastSuggestionQuery : Option String
  suggestionsTimeout : Option String
  inFlight : List String
  notified : List (List Suggestion)
deriving Repr, DecidableEq

def initialSuggState : SuggState :=
  { suggestions := [], lastSuggestionQuery := none, suggestionsTimeout := none,
    inFlight := [], notified := [] }

/-- The JavaScript `length` of a string: the number of UTF-16 code units
(code points above `0xFFFF` take a surrogate pair, i.e. two units). -/
def utf16Length (s : String) : Nat :=
  s.data.foldl (fun n c => n + (if c.toNat ≥ 65536 then 2 else 1)) 0

/-- JavaScript `String.prototype.toLowerCase()`: character-wise
lowercasing. -/
def toLowerCase (s : String) : String := ⟨s.data.map Char.toLower⟩

/-- The synchronous part of `getSuggestions(input)`: clear any scheduled
timer; on null/short input (`!input || input.length < 2`, where `.length`
counts UTF-16 code units) clear the suggestions and notify; otherwise
register the lowercased query key and schedule the fetch. -/
def getSuggestions (m : SuggState) (input : Option String) : SuggState :=
  let m0 := { m with suggestionsTimeout := none }
  match input with
  | none => { m0 with suggestions := [], notified := m0.notified ++ [[]] }
  | some s =>
    if utf16Length s < 2 then
      { m0 with suggestions := [], notified := m0.notified ++ [[]] }
    else
      let queryKey := toLowerCase s
      { m0 with lastSuggestionQuery := some queryKey,
                suggestionsTimeout := some queryKey }

/-- The scheduled timer fires: the fetch for the captured query key goes
out. -/
def fireSuggTimer (m : SuggState) : SuggState :=
  match m.suggestionsTimeout with
  | some key => { m with suggestionsTimeout := none, inFlight := m.inFlight ++ [key] }
  | none => m

/-- An in-flight fetch resolves: the callback drops the result if the
captured `queryKey` no longer equals `this._lastSuggestionQuery`,
otherwise it stores the result and notifies. -/
def completeSuggFetch (m : SuggState) (queryKey : String)
    (result : List Suggestion) : SuggState :=
  if queryKey ∈ m.inFlight then
    let m1 := { m with inFlight := m.inFlight.erase queryKey }
    if m1.lastSuggestionQuery = some queryKey then
      { m1 with suggestions := result, notified := m1.notified ++ [result] }
    else m1
  else m

inductive SuggEvent where
  | call (input : Option String)
  | fire
  | complete (queryKey : String) (result : List Suggestion)
deriving Repr

def stepSugg (m : SuggState) : SuggEvent → SuggState
  | .call input => getSuggestions m input
  | .fire => fireSuggTimer m
  | .complete key result => completeSuggFetch m key result

def runSuggEvents (events : List SuggEvent) : SuggState :=
  events.foldl stepSugg initialSuggState

/-! ## Theme store (`ThemeManager`, src/src/services/ThemeManager.js and
src/src/themes/themes.js) -/

/-- A JavaScript value reachable while walking a theme palette: a string
leaf, a number (e.g. the boxed-string `length` property), `null`, or an
object of named entries. -/
inductive JSVal where
  | vstr (s : String)
  | vnum (n : Nat)
  | vnull
  | vobj (entries : List (String × JSVal))

/-- First own property with the given name. -/
def objLookup : List (String × JSVal) → String → Option JSVal
  | [], _ => none
  | (k, v) :: rest, key => if k = key then some v else objLookup rest key

/-- Property names every plain JavaScript object resolves through
`Object.prototype` (including the legacy accessors). -/
def objectBuiltinProps : List String :=
  ["constructor", "hasOwnProperty", "isPrototypeOf", "propertyIsEnumerable",
   "toLocaleString", "toString", "valueOf", "__proto__",
   "__defineGetter__", "__defineSetter__", "__lookupGetter__",
   "__lookupSetter__"]

/-- Property names a boxed string resolves beyond the plain-object ones:
`length` and the `String.prototype` members (the list over-approximates
any single engine version, which only widens the unspecified region of
`indexJS` below). -/
def stringBuiltinProps : List String :=
  ["length", "at", "charAt", "charCodeAt", "codePointAt", "concat",
   "endsWith", "includes", "indexOf", "isWellFormed", "lastIndexOf",
   "localeCompare", "match", "matchAll", "normalize", "padEnd", "padStart",
   "repeat", "replace", "replaceAll", "search", "slice", "split",
   "startsWith", "substr", "substring", "toLocaleLowerCase",
   "toLocaleUpperCase", "toLowerCase", "toString", "toUpperCase",
   "toWellFormed", "trim", "trimEnd", "trimStart", "valueOf",
   "anchor", "big", "blink", "bold", "fixed", "fontcolor", "fontsize",
   "italics", "link", "small", "strike", "sub", "sup"]

/-- A pure-digit key: a candidate numeric index into a boxed string. -/
def isNumericCandidate (key : String) : Bool :=
  key != "" && key.data.all Char.isDigit

/-- Keys that cannot hit any JavaScript built-in property on the values a
palette walk visits: not an `Object.prototype` member, not `length` or a
`String.prototype` member, and not a candidate numeric index.  For such
a key, reading a plain object genuinely yields the own property or
`undefined`, and reading a string or number genuinely yields
`undefined`. -/
def avoidsBuiltinProps (key : String) : Bool :=
  !objectBuiltinProps.contains key && !stringBuiltinProps.contains key &&
    !isNumericCandidate key

/-- One property read `value[key]` as `getColor`'s loop performs it,
with boxing and the prototype chain accounted for.  `some` outcomes are
determined by the model: an own palette entry resolves to its value
(own properties shadow the prototype); the boxed-string `length`
property resolves to the UTF-16 length; a key avoiding every built-in
name resolves to `undefined` when it is not an own entry; reading a
property of `null` throws.  A read that could hit any other built-in
(a prototype member, a numeric index into a string, …) is left
unspecified (`none`): the embedding makes no statement about the
program's result there rather than guessing one. -/
def indexJS : JSVal → String → Option (Except Unit (Option JSVal))
  | .vobj entries, key =>
    match objLookup entries key with
    | some v => some (.ok (some v))
    | none => if avoidsBuiltinProps key then some (.ok none) else none
  | .vstr s, key =>
    if key = "length" then some (.ok (some (.vnum (utf16Length s))))
    else if avoidsBuiltinProps key then some (.ok none) else none
  | .vnum _, key => if avoidsBuiltinProps key then some (.ok none) else none
  | .vnull, _ => some (.error ())

/-- The `for (const key of keys)` loop of `getColor`: walk the palette,
returning `undefined` as soon as a read yields `undefined`.  The outer
`none` propagates an unspecified built-in read. -/
def getColorLoop : JSVal → List String → Option (Except Unit (Option JSVal))
  | v, [] => some (.ok (some v))
  | v, key :: rest =>
    match indexJS v key with
    | none => none
    | some (.error e) => some (.error e)
    | some (.ok none) => some (.ok none)
    | some (.ok (some v')) => getColorLoop v' rest

/-- A theme object of `themes.js`. -/
structure Theme where
  name : String
  colors : JSVal
  shadows : List (String × String)

/-- JavaScript `path.split('.')` on the character list: splitting yields
the (possibly empty) runs between dots, and splitting the empty string
yields `[""]`. -/
def splitDot : List Char → List (List Char)
  | [] => [[]]
  | c :: rest =>
    if c = '.' then [] :: splitDot rest
    else
      match splitDot rest with
      | [] => [[c]]
      | h :: t => (c :: h) :: t

/-- `path.split('.')`. -/
def splitOnDot (path : String) : List String :=
  (splitDot path.data).map (fun cs => String.mk cs)

/-- `getColor(path)` for a given active theme: split the path on `.` and
walk `theme.colors`. -/
def getColor (theme : Theme) (path : String) : Option (Except Unit (Option JSVal)) :=
  getColorLoop theme.colors (splitOnDot path)

/-- Some segment of the path is missing from the nested palette: walking
the segments reaches a value that does not have the next segment as a
palette entry (string and number leaves have no palette entries at
all). -/
def hasMissingSegment : JSVal → List String → Bool
  | _, [] => false
  | .vstr _, _ :: _ => true
  | .vnum _, _ :: _ => true
  | .vnull, _ :: _ => true
  | .vobj entries, key :: rest =>
    match objLookup entries key with
    | none => true
    | some v => hasMissingSegment v rest

/-- Fuelled check that a palette value contains no `null` anywhere. -/
def nullFreeFuel : Nat → JSVal → Bool
  | 0, _ => false
  | _ + 1, .vstr _ => true
  | _ + 1, .vnum _ => true
  | _ + 1, .vnull => false
  | fuel + 1, .vobj entries => entries.all (fun p => nullFreeFuel fuel p.2)

/-- Colors palette of the `light` theme (src/themes/themes.js). -/
def lightColors : JSVal := .vobj [
    ("primary", .vobj [
      ("50", .vstr "#eff6ff"),
      ("100", .vstr "#dbeafe"),
      ("200", .vstr "#bfdbfe"),
      ("300", .vstr "#93c5fd"),
      ("400", .vstr "#60a5fa"),
      ("500", .vstr "#3b82f6"),
      ("600", .vstr "#2563eb"),
      ("700", .vstr "#1d4ed8"),
      ("800", .vstr "#1e40af"),
      ("900", .vstr "#1e3a8a")]),
    ("secondary", .vobj [
      ("50", .vstr "#faf5ff"),
      ("100", .vstr "#f3e8ff"),
      ("200", .vstr "#e9d5ff"),
      ("300", .vstr "#d8b4fe"),
      ("400", .vstr "#c084fc"),
      ("500", .vstr "#a855f7"),
      ("600", .vstr "#9333ea"),
      ("700", .vstr "#7c3aed"),
      ("800", .vstr "#6b21a8"),
      ("900", .vstr "#581c87")]),
    ("background", .vobj [
      ("primary", .vstr "#f1eff1"),
      ("secondary", .vstr "#eae8ea"),
      ("tertiary", .vstr "#e0dee0"),
      ("card", .vstr "#f7f6f7"),
      ("modal", .vstr "#f7f6f7"),
      ("disabled", .vstr "#e0dee0")]),
    ("text", .vobj [
      ("primary", .vstr "#4a5568"),
      ("secondary", .vstr "#718096"),
      ("tertiary", .vstr "#a0aec0"),
      ("accent", .vstr "#805ad5"),
      ("inverse", .vstr "#ffffff"),
      ("muted", .vstr "#a0aec0"),
      ("placeholder", .vstr "#a0aec0"),
      ("disabled", .vstr "#a0aec0"),
      ("error", .vstr "#e53e3e"),
      ("success", .vstr "#38a169"),
      ("warning", .vstr "#dd6b20"),
      ("info", .vstr "#4299e1"),
      ("navbar", .vstr "#4a5568"),
      ("title", .vstr "#4a5568"),
      ("subtitle", .vstr "#718096"),
      ("caption", .vstr "#a0aec0"),
      ("meta", .vstr "#a0aec0"),
      ("button", .vstr "#ffffff"),
      ("link", .vstr "#805ad5"),
      ("linkHover", .vstr "#6b46c1")]),
    ("border", .vobj [
      ("primary", .vstr "#d5d3d5"),
      ("secondary", .vstr "#cac8ca"),
      ("accent", .vstr "#805ad5"),
      ("disabled", .vstr "#cac8ca")]),
    ("success", .vobj [
      ("50", .vstr "#f0fff4"),
      ("100", .vstr "#c6f6d5"),
      ("200", .vstr "#9ae6b4"),
      ("500", .vstr "#38a169"),
      ("600", .vstr "#2f855a"),
      ("700", .vstr "#276749"),
      ("bg", .vstr "#f0fff4"),
      ("text", .vstr "#276749"),
      ("border", .vstr "#9ae6b4")]),
    ("error", .vobj [
      ("50", .vstr "#fed7d7"),
      ("100", .vstr "#fed7d7"),
      ("200", .vstr "#fbb6ce"),
      ("500", .vstr "#e53e3e"),
      ("600", .vstr "#c53030"),
      ("700", .vstr "#9b2c2c"),
      ("bg", .vstr "#fed7d7"),
      ("text", .vstr "#9b2c2c"),
      ("border", .vstr "#fbb6ce")]),
    ("warning", .vobj [
      ("50", .vstr "#fffbeb"),
      ("100", .vstr "#fef3c7"),
      ("200", .vstr "#fcd34d"),
      ("500", .vstr "#dd6b20"),
      ("600", .vstr "#c05621"),
      ("700", .vstr "#9c4221"),
      ("bg", .vstr "#fffbeb"),
      ("text", .vstr "#9c4221"),
      ("border", .vstr "#fcd34d")]),
    ("youtube", .vobj [
      ("primary", .vstr "#ef4444"),
      ("hover", .vstr "#dc2626")]),
    ("spotify", .vobj [
      ("primary", .vstr "#16a34a"),
      ("hover", .vstr "#15803d")])]

/-- The `light` theme object (src/themes/themes.js). -/
def lightTheme : Theme :=
  { name := "Light", colors := lightColors, shadows := [("sm", "0 1px 2px 0 rgb(0 0 0 / 0.05)"), ("md", "0 4px 6px -1px rgb(0 0 0 / 0.1), 0 2px 4px -2px rgb(0 0 0 / 0.1)"), ("lg", "0 10px 15px -3px rgb(0 0 0 / 0.1), 0 4px 6px -4px rgb(0 0 0 / 0.1)"), ("xl", "0 20px 25px -5px rgb(0 0 0 / 0.1), 0 8px 10px -6px rgb(0 0 0 / 0.1)")] }

/-- Colors palette of the `dark` theme (src/themes/themes.js). -/
def darkColors : JSVal := .vobj [
    ("primary", .vobj [
      ("50", .vstr "#1e3a8a"),
      ("100", .vstr "#1e40af"),
      ("200", .vstr "#1d4ed8"),
      ("300", .vstr "#2563eb"),
      ("400", .vstr "#3b82f6"),
      ("500", .vstr "#60a5fa"),
      ("600", .vstr "#93c5fd"),
      ("700", .vstr "#bfdbfe"),
      ("800", .vstr "#dbeafe"),
      ("900", .vstr "#eff6ff")]),
    ("background", .vobj [
      ("primary", .vstr "#111827"),
      ("secondary", .vstr "#1f2937"),
      ("tertiary", .vstr "#374151"),
      ("card", .vstr "#1f2937"),
      ("modal", .vstr "#111827"),
      ("disabled", .vstr "#374151")]),
    ("text", .vobj [
      ("primary", .vstr "#f9fafb"),
      ("secondary", .vstr "#d1d5db"),
      ("tertiary", .vstr "#9ca3af"),
      ("accent", .vstr "#60a5fa"),
      ("inverse", .vstr "#111827"),
      ("muted", .vstr "#6b7280"),
      ("placeholder", .vstr "#6b7280"),
      ("disabled", .vstr "#6b7280"),
      ("error", .vstr "#fca5a5"),
      ("success", .vstr "#4ade80"),
      ("warning", .vstr "#fbbf24"),
      ("info", .vstr "#60a5fa"),
      ("navbar", .vstr "#f9fafb"),
      ("title", .vstr "#f9fafb"),
      ("subtitle", .vstr "#d1d5db"),
      ("caption", .vstr "#9ca3af"),
      ("meta", .vstr "#9ca3af"),
      ("button", .vstr "#111827"),
      ("link", .vstr "#60a5fa"),
      ("linkHover", .vstr "#93c5fd")]),
    ("border", .vobj [
      ("primary", .vstr "#374151"),
      ("secondary", .vstr "#4b5563"),
      ("accent", .vstr "#60a5fa"),
      ("disabled", .vstr "#4b5563")]),
    ("success", .vobj [
      ("bg", .vstr "#064e3b"),
      ("text", .vstr "#6ee7b7"),
      ("border", .vstr "#065f46")]),
    ("error", .vobj [
      ("bg", .vstr "#7f1d1d"),
      ("text", .vstr "#fca5a5"),
      ("border", .vstr "#991b1b")]),
    ("warning", .vobj [
      ("bg", .vstr "#78350f"),
      ("text", .vstr "#fcd34d"),
      ("border", .vstr "#92400e")]),
    ("youtube", .vobj [
      ("primary", .vstr "#ef4444"),
      ("hover", .vstr "#f87171")]),
    ("spotify", .vobj [
      ("primary", .vstr "#22c55e"),
      ("hover", .vstr "#4ade80")])]

/-- The `dark` theme object (src/themes/themes.js). -/
def darkTheme : Theme :=
  { name := "Dark", colors := darkColors, shadows := [("sm", "0 1px 2px 0 rgb(0 0 0 / 0.3)"), ("md", "0 4px 6px -1px rgb(0 0 0 / 0.3), 0 2px 4px -2px rgb(0 0 0 / 0.3)"), ("lg", "0 10px 15px -3px rgb(0 0 0 / 0.3), 0 4px 6px -4px rgb(0 0 0 / 0.3)"), ("xl", "0 20px 25px -5px rgb(0 0 0 / 0.3), 0 8px 10px -6px rgb(0 0 0 / 0.3)")] }

/-- Colors palette of the `ocean` theme (src/themes/themes.js). -/
def oceanColors : JSVal := .vobj [
    ("primary", .vobj [
      ("50", .vstr "#ecfeff"),
      ("100", .vstr "#cffafe"),
      ("200", .vstr "#a5f3fc"),
      ("300", .vstr "#67e8f9"),
      ("400", .vstr "#22d3ee"),
      ("500", .vstr "#06b6d4"),
      ("600", .vstr "#0891b2"),
      ("700", .vstr "#0e7490"),
      ("800", .vstr "#155e75"),
      ("900", .vstr "#164e63")]),
    ("background", .vobj [
      ("primary", .vstr "#f0fdfa"),
      ("secondary", .vstr "#ccfbf1"),
      ("tertiary", .vstr "#99f6e4"),
      ("card", .vstr "#ffffff"),
      ("modal", .vstr "#ffffff"),
      ("disabled", .vstr "#99f6e4")]),
    ("text", .vobj [
      ("primary", .vstr "#134e4a"),
      ("secondary", .vstr "#0f766e"),
      ("tertiary", .vstr "#14b8a6"),
      ("accent", .vstr "#06b6d4"),
      ("inverse", .vstr "#ffffff"),
      ("muted", .vstr "#5eead4"),
      ("placeholder", .vstr "#5eead4"),
      ("disabled", .vstr "#5eead4"),
      ("error", .vstr "#dc2626"),
      ("success", .vstr "#065f46"),
      ("warning", .vstr "#ca8a04"),
      ("info", .vstr "#06b6d4"),
      ("navbar", .vstr "#134e4a"),
      ("title", .vstr "#134e4a"),
      ("subtitle", .vstr "#0f766e"),
      ("caption", .vstr "#14b8a6"),
      ("meta", .vstr "#14b8a6"),
      ("button", .vstr "#ffffff"),
      ("link", .vstr "#06b6d4"),
      ("linkHover", .vstr "#0891b2")]),
    ("border", .vobj [
      ("primary", .vstr "#5eead4"),
      ("secondary", .vstr "#2dd4bf"),
      ("accent", .vstr "#06b6d4"),
      ("disabled", .vstr "#2dd4bf")]),
    ("success", .vobj [
      ("bg", .vstr "#d1fae5"),
      ("text", .vstr "#065f46"),
      ("border", .vstr "#a7f3d0")]),
    ("error", .vobj [
      ("bg", .vstr "#fef2f2"),
      ("text", .vstr "#dc2626"),
      ("border", .vstr "#fecaca")]),
    ("warning", .vobj [
      ("bg", .vstr "#fefce8"),
      ("text", .vstr "#ca8a04"),
      ("border", .vstr "#fef3c7")]),
    ("youtube", .vobj [
      ("primary", .vstr "#ef4444"),
      ("hover", .vstr "#dc2626")]),
    ("spotify", .vobj [
      ("primary", .vstr "#16a34a"),
      ("hover", .vstr "#15803d")])]

/-- The `ocean` theme object (src/themes/themes.js). -/
def oceanTheme : Theme :=
  { name := "Ocean", colors := oceanColors, shadows := [("sm", "0 1px 2px 0 rgb(6 182 212 / 0.1)"), ("md", "0 4px 6px -1px rgb(6 182 212 / 0.15), 0 2px 4px -2px rgb(6 182 212 / 0.1)"), ("lg", "0 10px 15px -3px rgb(6 182 212 / 0.15), 0 4px 6px -4px rgb(6 182 212 / 0.1)"), ("xl", "0 20px 25px -5px rgb(6 182 212 / 0.15), 0 8px 10px -6px rgb(6 182 212 / 0.1)")] }

/-- The `themes` export of src/themes/themes.js: the fixed map of named themes. -/
def themes : List (String × Theme) := [("light", lightTheme), ("dark", darkTheme), ("ocean", oceanTheme)]

/-- The state a failed `executeSearch` leaves behind. -/
def executeSearchFailurePost (m : SearchMgr) (flag : Bool)
    (outcome : QueryOutcome) (msg : String) : Prop :=
  (executeSearch m flag outcome).1.state.results = [] ∧
  (executeSearch m flag outcome).1.state.error = some msg ∧
  (executeSearch m flag outcome).1.state.isLoading = false ∧
  (executeSearch m flag outcome).1.state.isInitialLoad = false ∧
  (executeSearch m flag outcome).1.state.totalCount = m.state.totalCount ∧
  (executeSearch m flag outcome).1.state.searchTerm = m.state.searchTerm ∧
  (executeSearch m flag outcome).1.state.filters = m.state.filters ∧
  (executeSearch m flag outcome).1.state.searchHistory = m.state.searchHistory ∧
  (executeSearch m flag outcome).1.state.suggestions = m.state.suggestions ∧
  (executeSearch m flag outcome).1.lastHistoryTerm = m.lastHistoryTerm

/-- The behaviour the spec ascribes to `remove(url)`: a no-op when the URL
is absent; otherwise exactly the found entry is deleted, `currentIndex`
is decremented when the removed index was strictly before it (the playing
item keeps its identity), and removal of the current item clamps the
index to `min(removedIndex, items.length - 1)` on the shrunken list, or
`-1` when now empty. -/
def removeBehavior (s : QState) (url : String) : Prop :=
  ((∀ x ∈ s.queue, x.url ≠ url) → (remove s url).1 = s) ∧
  (∀ i, findIdxUrl s.queue url = some i →
    (remove s url).1.queue = s.queue.eraseIdx i ∧
    ((i : Int) < s.currentIndex →
      (remove s url).1.currentIndex = s.currentIndex - 1 ∧
      (getState (remove s url).1).currentItem = (getState s).currentItem) ∧
    ((i : Int) = s.currentIndex →
      (remove s url).1.currentIndex =
        (if (s.queue.eraseIdx i).length = 0 then -1
         else min (i : Int) (((s.queue.eraseIdx i).length : Int) - 1))))

/-- The postcondition of `playNow(x)`: the entry with `x`'s url sits at
index 0 with `x`'s fields winning over any previously stored fields,
`currentIndex = 0`, the other items keep their relative order, the
distinct-URL count grows by at most one, and a second `playNow(x)` keeps
the length with `currentIndex = 0` again. -/
def playNowPost (s : QState) (x : Item) : Prop :=
  ∃ hd tl,
    (playNow s (some x)).1.queue = hd :: tl ∧
    hd.url = x.url ∧
    (∀ k, lookupField hd.fields k =
      (lookupField x.fields k).orElse (fun _ =>
        (s.queue.find? (fun i => i.url == x.url)).bind
          (fun old => lookupField old.fields k))) ∧
    (playNow s (some x)).1.currentIndex = 0 ∧
    tl.Sublist s.queue ∧
    (∀ y ∈ s.queue, y.url ≠ x.url → y ∈ tl) ∧
    ((playNow s (some x)).1.queue.map Item.url).dedup.length ≤
      ((s.queue.map Item.url).dedup.length) + 1 ∧
    (playNow (playNow s (some x)).1 (some x)).1.queue.length =
      (playNow s (some x)).1.queue.length ∧
    (playNow (playNow s (some x)).1 (some x)).1.currentIndex = 0

/-- What happens when an in-flight suggestion fetch resolves: applied
(stored and notified) when its query key is still the most recently
registered one, silently discarded otherwise. -/
def suggestionCompletePost (m : SuggState) (key : String)
    (result : List Suggestion) : Prop :=
  (m.lastSuggestionQuery = some key →
    (completeSuggFetch m key result).suggestions = result ∧
    (completeSuggFetch m key result).notified = m.notified ++ [result]) ∧
  (m.lastSuggestionQuery ≠ some key →
    (completeSuggFetch m key result).suggestions = m.suggestions ∧
    (completeSuggFetch m key result).notified = m.notified)

/-- The synchronous effect of `getSuggestions` on null or short input:
suggestions cleared, subscribers notified with the empty list, no fetch
scheduled, nothing else touched. -/
def shortInputPost (m : SuggState) (input : Option String) : Prop :=
  (getSuggestions m input).suggestions = [] ∧
  (getSuggestions m input).notified = m.notified ++ [[]] ∧
  (getSuggestions m input).suggestionsTimeout = none ∧
  (getSuggestions m input).inFlight = m.inFlight ∧
  (getSuggestions m input).lastSuggestionQuery = m.lastSuggestionQuery

/-! ### Lemmas about `findIdxUrl` and `eraseIdx` -/

theorem findIdxUrl_eq_none {q : List Item} {url : String} :
    findIdxUrl q url = none ↔ ∀ x ∈ q, x.url ≠ url := by
  induction q with
  | nil => simp [findIdxUrl]
  | cons a t ih =>
    by_cases h : a.url = url <;>
      simp [findIdxUrl, h, ih, Option.map_eq_none']

theorem findIdxUrl_lt_length {q : List Item} {url : String} {i : Nat}
    (h : findIdxUrl q url = some i) : i < q.length := by
  induction q generalizing i with
  | nil => simp [findIdxUrl] at h
  | cons a t ih =>
    simp only [findIdxUrl] at h
    split at h
    · cases h; simp
    · rcases Option.map_eq_some'.mp h with ⟨j, hj, rfl⟩
      have := ih hj
      simp only [List.length_cons]
      omega

theorem findIdxUrl_getElem {q : List Item} {url : String} {i : Nat}
    (h : findIdxUrl q url = some i) (hi : i < q.length) : q[i].url = url := by
  induction q generalizing i with
  | nil => simp [findIdxUrl] at h
  | cons a t ih =>
    simp only [findIdxUrl] at h
    split at h
    · rename_i ha; cases h; simpa using ha
    · rcases Option.map_eq_some'.mp h with ⟨j, hj, rfl⟩
      have hjl : j < t.length := findIdxUrl_lt_length hj
      simpa using ih hj hjl

theorem eraseIdx_getElem?_of_lt {α : Type} {l : List α} {i j : Nat} (h : j < i) :
    (l.eraseIdx i)[j]? = l[j]? := by
  induction l generalizing i j with
  | nil => simp [List.eraseIdx]
  | cons a t ih =>
    cases i with
    | zero => omega
    | succ i' =>
      cases j with
      | zero => simp [List.eraseIdx]
      | succ j' => simp [List.eraseIdx, ih (by omega : j' < i')]

theorem eraseIdx_getElem?_of_le {α : Type} {l : List α} {i j : Nat} (h : i ≤ j) :
    (l.eraseIdx i)[j]? = l[j + 1]? := by
  induction l generalizing i j with
  | nil => simp [List.eraseIdx]
  | cons a t ih =>
    cases i with
    | zero => simp [List.eraseIdx]
    | succ i' =>
      cases j with
      | zero => omega
      | succ j' => simp [List.eraseIdx, ih (by omega : i' ≤ j')]

theorem map_url_eraseIdx (q : List Item) (i : Nat) :
    (q.eraseIdx i).map Item.url = (q.map Item.url).eraseIdx i := by
  induction q generalizing i with
  | nil => simp
  | cons a t ih => cases i <;> simp [List.eraseIdx, ih]

theorem not_mem_eraseIdx_of_nodup {α : Type} {l : List α} (h : l.Nodup) {i : Nat}
    (hi : i < l.length) : l[i] ∉ l.eraseIdx i := by
  intro hmem
  rcases List.mem_iff_getElem.mp hmem with ⟨j, hj, hval⟩
  have hlen : (l.eraseIdx i).length = l.length - 1 := by
    rw [List.length_eraseIdx]; simp [hi]
  rcases Nat.lt_or_ge j i with hji | hji
  · have hjl : j < l.length := by omega
    have h1 : (l.eraseIdx i)[j]? = l[j]? := eraseIdx_getElem?_of_lt hji
    rw [List.getElem?_eq_getElem hj, List.getElem?_eq_getElem hjl] at h1
    have heq : l[j] = l[i] := by rw [← hval]; exact (Option.some.inj h1).symm
    have : j = i := (List.Nodup.getElem_inj_iff h).mp heq
    omega
  · have hjl : j + 1 < l.length := by omega
    have h1 : (l.eraseIdx i)[j]? = l[j + 1]? := eraseIdx_getElem?_of_le hji
    rw [List.getElem?_eq_getElem hj, List.getElem?_eq_getElem hjl] at h1
    have heq : l[j + 1] = l[i] := by rw [← hval]; exact (Option.some.inj h1).symm
    have : j + 1 = i := (List.Nodup.getElem_inj_iff h).mp heq
    omega

/-! ### Preservation of the queue invariants -/

theorem noDup_step {s : QState} (h : NoDupUrls s) (op : QOp) : NoDupUrls (step s op) := by
  cases op with
  | add item =>
    cases item with
    | none => exact h
    | some it =>
      simp only [NoDupUrls, step, stepN, add] at h ⊢
      split
      · exact h
      · split
        · exact h
        · rename_i hurl hany
          simp only [List.map_append, List.map_cons, List.map_nil]
          rw [List.nodup_append]
          refine ⟨h, List.nodup_singleton _, ?_⟩
          intro u hu hv
          simp only [List.mem_singleton] at hv
          subst hv
          rcases List.mem_map.mp hu with ⟨x, hx, hxu⟩
          exact hany (List.any_eq_true.mpr ⟨x, hx, by simp [hxu]⟩)
  | playNow item =>
    cases item with
    | none => exact h
    | some it =>
      simp only [NoDupUrls, step, stepN, playNow] at h ⊢
      split
      · exact h
      · rename_i hurl
        cases hfind : findIdxUrl s.queue it.url with
        | some i =>
          have hi : i < s.queue.length := findIdxUrl_lt_length hfind
          have hiu : s.queue[i].url = it.url := findIdxUrl_getElem hfind hi
          simp only [List.map_cons]
          rw [List.nodup_cons, map_url_eraseIdx]
          constructor
          · have hmi : i < (s.queue.map Item.url).length := by simpa using hi
            have hval : (s.queue.map Item.url)[i] = it.url := by
              simpa [hiu] using (List.getElem_map (l := s.queue) (f := Item.url) (i := i))
            have := not_mem_eraseIdx_of_nodup h hmi
            rw [hval] at this
            simpa [mergeItems] using this
          · exact ((s.queue.map Item.url).eraseIdx_sublist i).nodup h
        | none =>
          simp only [List.map_cons]
          rw [List.nodup_cons]
          refine ⟨?_, h⟩
          intro hmem
          rcases List.mem_map.mp hmem with ⟨x, hx, hxu⟩
          exact (findIdxUrl_eq_none.mp hfind x hx) hxu
  | remove url =>
    simp only [NoDupUrls, step, stepN, remove] at h ⊢
    cases hfind : findIdxUrl s.queue url with
    | none => exact h
    | some i =>
      simp only
      rw [map_url_eraseIdx]
      exact ((s.queue.map Item.url).eraseIdx_sublist i).nodup h
  | clear => simp [NoDupUrls, step, stepN, clear]
  | next =>
    simp only [NoDupUrls, step, stepN, next]
    split <;> exact h
  | previous =>
    simp only [NoDupUrls, step, stepN, previous]
    split <;> exact h

theorem bounds_step {s : QState} (h : IndexInBounds s) (op : QOp) :
    IndexInBounds (step s op) := by
  cases op with
  | add item =>
    cases item with
    | none => exact h
    | some it =>
      simp only [IndexInBounds, step, stepN, add] at h ⊢
      split
      · exact h
      · split
        · exact h
        · simp only [List.length_append, List.length_cons, List.length_nil]
          omega
  | playNow item =>
    cases item with
    | none => exact h
    | some it =>
      simp only [IndexInBounds, step, stepN, playNow] at h ⊢
      split
      · exact h
      · cases hfind : findIdxUrl s.queue it.url with
        | some i =>
          have hi : i < s.queue.length := findIdxUrl_lt_length hfind
          have hlen : (s.queue.eraseIdx i).length = s.queue.length - 1 := by
            rw [List.length_eraseIdx]; simp [hi]
          simp only [List.length_cons, hlen]
          omega
        | none =>
          simp only [List.length_cons]
          omega
  | remove url =>
    simp only [IndexInBounds, step, stepN, remove] at h ⊢
    cases hfind : findIdxUrl s.queue url with
    | none => exact h
    | some i =>
      have hi : i < s.queue.length := findIdxUrl_lt_length hfind
      have hlen : (s.queue.eraseIdx i).length = s.queue.length - 1 := by
        rw [List.length_eraseIdx]; simp [hi]
      simp only [hlen]
      split
      · rename_i hgt
        rcases h with h | h
        · omega
        · omega
      · split
        · rename_i hne heq
          split
          · rename_i hnz
            refine Or.inr ⟨?_, ?_⟩ <;> (rw [Int.min_def]; split <;> omega)
          · exact Or.inl rfl
        · rcases h with h | h
          · exact Or.inl h
          · rename_i hle hne
            refine Or.inr ⟨h.1, ?_⟩
            omega
  | clear => simp [IndexInBounds, step, stepN, clear]
  | next =>
    simp only [IndexInBounds, step, stepN, next]
    split
    · rename_i hg
      obtain ⟨hg1, hg2⟩ := hg
      dsimp only
      rcases h with h | h <;> exact Or.inr ⟨by omega, by omega⟩
    · exact h
  | previous =>
    simp only [IndexInBounds, step, stepN, previous]
    split
    · rename_i hg
      dsimp only
      rcases h with h | h
      · omega
      · exact Or.inr ⟨by omega, by omega⟩
    · exact h

theorem noDup_foldl {s : QState} (h : NoDupUrls s) (ops : List QOp) :
    NoDupUrls (ops.foldl step s) := by
  induction ops generalizing s with
  | nil => exact h
  | cons op rest ih => exact ih (noDup_step h op)

theorem bounds_foldl {s : QState} (h : IndexInBounds s) (ops : List QOp) :
    IndexInBounds (ops.foldl step s) := by
  induction ops generalizing s with
  | nil => exact h
  | cons op rest ih => exact ih (bounds_step h op)

/-- C1: for every sequence of queue operations (`add`, `playNow`, `remove`,
`clear`, `next`, `previous`) starting from the empty queue, the items list
never contains two entries with the same `url`. -/
theorem queue_never_has_duplicate_urls (ops : List QOp) :
    (runOps ops).queue.Pairwise (fun a b => a.url ≠ b.url) := by
  have h : NoDupUrls (runOps ops) :=
    noDup_foldl (by simp [NoDupUrls, initialQState]) ops
  rw [NoDupUrls, List.Nodup, List.pairwise_map] at h
  exact h

/-! ### Lemmas for the `playNow` functional specification -/

theorem lookupField_append (l₁ l₂ : List (String × String)) (k : String) :
    lookupField (l₁ ++ l₂) k =
      (lookupField l₁ k).orElse (fun _ => lookupField l₂ k) := by
  induction l₁ with
  | nil => simp [lookupField]
  | cons p rest ih =>
    by_cases h : p.1 = k <;> simp [lookupField, h, ih]

theorem lookupField_filter_of_isSome {l g : List (String × String)} {k : String}
    (h : (lookupField g k).isSome) :
    lookupField (l.filter (fun p => (lookupField g p.1).isNone)) k = none := by
  induction l with
  | nil => simp [lookupField]
  | cons p rest ih =>
    by_cases hk : p.1 = k
    · have : (lookupField g p.1).isNone = false := by
        rw [hk]; simp [Option.isNone_eq_false_iff, h]
      simp [List.filter_cons, this, ih]
    · by_cases hkeep : (lookupField g p.1).isNone
      · simp [List.filter_cons, hkeep, lookupField, hk, ih]
      · simp [List.filter_cons, hkeep, ih]

theorem lookupField_filter_of_none {l g : List (String × String)} {k : String}
    (h : lookupField g k = none) :
    lookupField (l.filter (fun p => (lookupField g p.1).isNone)) k =
      lookupField l k := by
  induction l with
  | nil => simp
  | cons p rest ih =>
    by_cases hk : p.1 = k
    · have hkeep : (lookupField g p.1).isNone = true := by rw [hk]; simp [h]
      simp [List.filter_cons, hkeep, lookupField, hk, h]
    · by_cases hkeep : (lookupField g p.1).isNone
      · simp [List.filter_cons, hkeep, lookupField, hk, ih]
      · simp [List.filter_cons, hkeep, lookupField, hk, ih]

/-- Reading any property off `{ ...old, ...new }`: `new`'s own properties
win, `old`'s fill in the rest. -/
theorem mergeItems_lookup (old new : Item) (k : String) :
    lookupField (mergeItems old new).fields k =
      (lookupField new.fields k).orElse (fun _ => lookupField old.fields k) := by
  simp only [mergeItems, lookupField_append]
  cases hnew : lookupField new.fields k with
  | some v =>
    rw [lookupField_filter_of_isSome (by simp [hnew])]
    simp [hnew, Option.orElse]
  | none =>
    rw [lookupField_filter_of_none hnew]
    cases lookupField old.fields k <;> simp [hnew, Option.orElse]

/-- `findIndex` + indexing agrees with `find?` on the same predicate. -/
theorem find?_eq_findIdxUrl (q : List Item) (url : String) :
    q.find? (fun i => i.url == url) =
      (findIdxUrl q url).map (fun i => q.getD i dummyItem) := by
  induction q with
  | nil => simp [findIdxUrl]
  | cons a t ih =>
    by_cases h : a.url = url
    · simp [findIdxUrl, List.find?_cons, h]
    · simp only [findIdxUrl, if_neg h, List.find?_cons]
      rw [show (a.url == url) = false by simp [h]]
      rw [ih, Option.map_map]
      cases findIdxUrl t url <;> simp

theorem mem_eraseIdx_of_getElem_ne {α : Type} {l : List α} {i : Nat}
    (hi : i < l.length) {y : α} (hy : y ∈ l) (hne : y ≠ l[i]) :
    y ∈ l.eraseIdx i := by
  rcases List.mem_iff_getElem.mp hy with ⟨j, hj, rfl⟩
  rcases Nat.lt_trichotomy j i with hlt | heq | hgt
  · exact List.mem_iff_getElem?.mpr
      ⟨j, by rw [eraseIdx_getElem?_of_lt hlt, List.getElem?_eq_getElem hj]⟩
  · exact absurd (by simp [heq]) hne
  · refine List.mem_iff_getElem?.mpr ⟨j - 1, ?_⟩
    rw [eraseIdx_getElem?_of_le (by omega), (by omega : j - 1 + 1 = j),
      List.getElem?_eq_getElem hj]

/-- C2: for every sequence of queue operations starting from the empty
queue, after each operation `currentIndex` is either `-1` or satisfies
`0 ≤ currentIndex < items.length`. -/
theorem queue_index_always_in_bounds (ops : List QOp) :
    (runOps ops).currentIndex = -1 ∨
      (0 ≤ (runOps ops).currentIndex ∧
        (runOps ops).currentIndex < ((runOps ops).queue.length : Int)) :=
  bounds_foldl (by simp [IndexInBounds, initialQState]) ops

/-- C3: for every queue state satisfying the invariants and every item `x`
with a non-empty url, after `playNow(x)` the entry with `x`'s url is at
index 0 with `x`'s fields winning over any previously stored fields,
`currentIndex = 0`, the relative order of all other items is preserved
(the tail is a sublist of the old queue containing every item whose url
differs from `x`'s), the number of distinct URLs grows by at most one, and
calling `playNow(x)` twice in a row leaves `items.length` unchanged with
`currentIndex = 0` both times. -/
theorem playNow_spec (s : QState) (x : Item)
    (hnodup : NoDupUrls s) (hbounds : IndexInBounds s) (hx : x.url ≠ "") :
    playNowPost s x := by
  unfold playNowPost
  have hnodup' : NoDupUrls (step s (.playNow (some x))) :=
    noDup_step hnodup (.playNow (some x))
  simp only [step, stepN] at hnodup'
  cases hfind : findIdxUrl s.queue x.url with
  | some i =>
    have hi : i < s.queue.length := findIdxUrl_lt_length hfind
    have hiu : s.queue[i].url = x.url := findIdxUrl_getElem hfind hi
    have hgetD : s.queue.getD i dummyItem = s.queue[i] :=
      List.getD_eq_getElem s.queue dummyItem hi
    have hq : (playNow s (some x)).1.queue =
        mergeItems (s.queue.getD i dummyItem) x :: s.queue.eraseIdx i := by
      simp [playNow, if_neg hx, hfind]
    refine ⟨mergeItems (s.queue.getD i dummyItem) x, s.queue.eraseIdx i, hq,
      rfl, ?_, ?_, ?_, ?_, ?_, ?_, ?_⟩
    · intro k
      rw [mergeItems_lookup, find?_eq_findIdxUrl, hfind]
      simp
    · simp [playNow, if_neg hx, hfind]
    · exact s.queue.eraseIdx_sublist i
    · intro y hy hyne
      exact mem_eraseIdx_of_getElem_ne hi hy (fun hcontra => hyne (hcontra ▸ hiu))
    · have hn' : ((mergeItems (s.queue.getD i dummyItem) x ::
          s.queue.eraseIdx i).map Item.url).Nodup := by
        rw [NoDupUrls, hq] at hnodup'; exact hnodup'
      rw [hq, List.dedup_eq_self.mpr hn', List.dedup_eq_self.mpr hnodup]
      have hlen : (s.queue.eraseIdx i).length = s.queue.length - 1 := by
        rw [List.length_eraseIdx]; simp [hi]
      simp only [List.map_cons, List.length_cons, List.length_map, hlen]
      omega
    · have hq2 : (playNow (playNow s (some x)).1 (some x)).1.queue =
          mergeItems ((playNow s (some x)).1.queue.getD 0 dummyItem) x ::
            s.queue.eraseIdx i := by
        simp [playNow, if_neg hx, hfind, findIdxUrl, mergeItems, List.eraseIdx]
      rw [hq2, hq]
      simp
    · simp [playNow, if_neg hx, hfind, findIdxUrl, mergeItems]
  | none =>
    have hq : (playNow s (some x)).1.queue = x :: s.queue := by
      simp [playNow, if_neg hx, hfind]
    refine ⟨x, s.queue, hq, rfl, ?_, ?_, List.Sublist.refl _, fun y hy _ => hy,
      ?_, ?_, ?_⟩
    · intro k
      rw [find?_eq_findIdxUrl, hfind]
      cases lookupField x.fields k <;> simp [Option.orElse]
    · simp [playNow, if_neg hx, hfind]
    · have hn' : ((x :: s.queue).map Item.url).Nodup := by
        rw [NoDupUrls, hq] at hnodup'; exact hnodup'
      rw [hq, List.dedup_eq_self.mpr hn', List.dedup_eq_self.mpr hnodup]
      simp
    · have hq2 : (playNow (playNow s (some x)).1 (some x)).1.queue =
          mergeItems x x :: s.queue := by
        simp [playNow, if_neg hx, hfind, findIdxUrl, List.eraseIdx]
      rw [hq2, hq]
      simp
    · simp [playNow, if_neg hx, hfind, findIdxUrl]

/-- Witness for `playNow_spec`: a concrete invariant-satisfying queue and
item. -/
theorem playNow_spec_witness :
    NoDupUrls { queue := [itemA], currentIndex := 0 } ∧
    IndexInBounds { queue := [itemA], currentIndex := 0 } ∧
    itemB.url ≠ "" ∧
    playNowPost { queue := [itemA], currentIndex := 0 } itemB :=
  ⟨by unfold NoDupUrls; decide, by unfold IndexInBounds; decide, by decide,
    playNow_spec { queue := [itemA], currentIndex := 0 } itemB
      (by unfold NoDupUrls; decide) (by unfold IndexInBounds; decide) (by decide)⟩

/-- C4: for every queue state satisfying the invariants and every url,
`remove(url)` is a no-op when the url is not in `items`; otherwise it
deletes exactly that entry, decrements `currentIndex` when the removed
index was strictly before it (the currently playing item keeps its
identity), and when the removed index equals `currentIndex` clamps it to
`min(removedIndex, items.length - 1)` on the shrunken list, or `-1` when
now empty.  In particular `[a,b,c]` with index 2 yields `[a,c]` with
index 1 after `remove('b')`, and `[a,b,c]` with index 1 yields `[a,c]`
with index 1. -/
theorem remove_spec :
    (∀ s url, NoDupUrls s → IndexInBounds s → removeBehavior s url) ∧
    (remove { queue := [itemA, itemB, itemC], currentIndex := 2 } "b").1 =
      { queue := [itemA, itemC], currentIndex := 1 } ∧
    (remove { queue := [itemA, itemB, itemC], currentIndex := 1 } "b").1 =
      { queue := [itemA, itemC], currentIndex := 1 } := by
  refine ⟨?_, by decide, by decide⟩
  intro s url hnodup hbounds
  constructor
  · intro hnone
    have hfind : findIdxUrl s.queue url = none := findIdxUrl_eq_none.mpr hnone
    simp [remove, hfind]
  · intro i hfind
    have hi : i < s.queue.length := findIdxUrl_lt_length hfind
    have hlen : (s.queue.eraseIdx i).length = s.queue.length - 1 := by
      rw [List.length_eraseIdx]; simp [hi]
    refine ⟨by simp [remove, hfind], ?_, ?_⟩
    · intro hlt
      have hgt : s.currentIndex > (i : Int) := hlt
      have hq' : (remove s url).1 =
          { queue := s.queue.eraseIdx i, currentIndex := s.currentIndex - 1 } := by
        simp [remove, hfind, if_pos hgt]
      refine ⟨by rw [hq'], ?_⟩
      rcases hbounds with hc | ⟨hc0, hclen⟩
      · exfalso; omega
      · rw [hq']
        have hcond : 0 ≤ s.currentIndex - 1 ∧
            s.currentIndex - 1 < ((s.queue.eraseIdx i).length : Int) := by
          constructor <;> omega
        have hcond' : 0 ≤ s.currentIndex ∧ s.currentIndex < (s.queue.length : Int) :=
          ⟨hc0, hclen⟩
        simp only [getState, if_pos hcond, if_pos hcond']
        have harg : i ≤ (s.currentIndex - 1).toNat := by omega
        rw [eraseIdx_getElem?_of_le harg]
        congr 1
        omega
    · intro heq
      have hngt : ¬ s.currentIndex > (i : Int) := by omega
      have heq' : s.currentIndex = (i : Int) := heq.symm
      simp only [remove, hfind, if_neg hngt, if_pos heq']
      by_cases hz : (s.queue.eraseIdx i).length = 0
      · simp [hz]
      · simp [hz]

/-- Witness for the universally quantified part of `remove_spec`. -/
theorem remove_spec_witness :
    NoDupUrls { queue := [itemA, itemB, itemC], currentIndex := 2 } ∧
    IndexInBounds { queue := [itemA, itemB, itemC], currentIndex := 2 } ∧
    removeBehavior { queue := [itemA, itemB, itemC], currentIndex := 2 } "b" :=
  ⟨by unfold NoDupUrls; decide, by unfold IndexInBounds; decide,
    remove_spec.1 { queue := [itemA, itemB, itemC], currentIndex := 2 } "b"
      (by unfold NoDupUrls; decide) (by unfold IndexInBounds; decide)⟩

/-- C6 counterexample: `next()` on the empty initial queue leaves the
state unchanged by its guard and emits NO subscriber notification, so not
every queue operation call ends with a notify-all-subscribers side
effect. -/
theorem queue_notify_cex :
    (next initialQState).2 = [] ∧ (next initialQState).1 = initialQState := by
  constructor <;> rfl

/-- C6 (amended): a queue store operation call emits a notification
exactly when its guard passes — guarded no-op calls (`add` with a falsy
url or duplicate, `playNow` with a falsy url, `remove` of an absent url,
`next` at the end, `previous` at index 0 or below) emit none — and every
emitted notification carries the final post-operation state, so
subscribers never observe a partially-updated queue. -/
theorem queue_notify_spec (s : QState) (op : QOp) :
    (stepN s op).2 = if notifies s op then [getState (stepN s op).1] else [] := by
  cases op with
  | add item =>
    cases item with
    | none => simp [stepN, add, notifies]
    | some it =>
      by_cases h1 : it.url = ""
      · simp [stepN, add, notifies, h1]
      · by_cases h2 : s.queue.any (fun i => i.url == it.url) <;>
          simp [stepN, add, notifies, h1, h2]
  | playNow item =>
    cases item with
    | none => simp [stepN, playNow, notifies]
    | some it =>
      by_cases h1 : it.url = ""
      · simp [stepN, playNow, notifies, h1]
      · cases hfind : findIdxUrl s.queue it.url <;>
          simp [stepN, playNow, notifies, h1, hfind]
  | remove url =>
    cases hfind : findIdxUrl s.queue url <;>
      simp [stepN, remove, notifies, hfind]
  | clear => simp [stepN, clear, notifies]
  | next =>
    by_cases h : s.queue.length > 0 ∧ s.currentIndex < (s.queue.length : Int) - 1 <;>
      simp [stepN, next, notifies, h]
  | previous =>
    by_cases h : s.currentIndex > 0 <;> simp [stepN, previous, notifies, h]

/-- C5 counterexample: with previously displayed results `[song1]`, a
failed search (collaborator query returns an error) leaves `results`
empty — the failed search clears the previously displayed results instead
of leaving them unchanged. -/
theorem executeSearch_failure_cex :
    (executeSearch
      { state := { searchTerm := "", isLoading := false, isInitialLoad := false,
                   filters := { tags := [], artists := [], platforms := [],
                                dateRange := none },
                   results := [{ id := "song1" }], totalCount := 1, error := none,
                   searchHistory := [], suggestions := [] },
        lastHistoryTerm := "" }
      false (.dbError "boom")).1.state.results = [] ∧
    ([{ id := "song1" }] : List Song) ≠ [] := by
  constructor
  · rfl
  · decide

/-- C5 (amended): when a search execution fails (error response or throw),
the store clears `results` to the empty list — previous results are NOT
preserved — sets the user-facing error message, and clears the loading
flags; `totalCount`, `searchTerm`, filters, history, suggestions and the
last history term are unchanged. -/
theorem executeSearch_failure_spec :
    (∀ m flag msg,
      executeSearchFailurePost m flag (.dbError msg) failedSearchMessage) ∧
    (∀ m flag, executeSearchFailurePost m flag .thrown unexpectedSearchMessage) := by
  constructor <;> intros <;>
    exact ⟨rfl, rfl, rfl, rfl, rfl, rfl, rfl, rfl, rfl, rfl⟩

theorem debounce_aux (rest : List (Nat × String)) :
    ∀ (t : Nat) (term : String) (E : List String),
    RapidFire ((t, term) :: rest) →
    (flushTimers (rest.foldl (fun m e => setSearchTermAt m e.1 e.2)
        { searchTerm := term, searchTimeout := some (t + debounceDelay),
          executed := E })).executed =
      E ++ [(((t, term) :: rest).getLast (List.cons_ne_nil _ _)).2] := by
  induction rest with
  | nil => intro t term E _; simp [flushTimers]
  | cons e2 rest2 ih =>
    intro t term E h
    obtain ⟨t2, s2⟩ := e2
    obtain ⟨h1, h2, h3⟩ := h
    rw [List.foldl_cons]
    have hfire : setSearchTermAt
        { searchTerm := term, searchTimeout := some (t + debounceDelay),
          executed := E } t2 s2 =
        { searchTerm := s2, searchTimeout := some (t2 + debounceDelay),
          executed := E } := by
      simp [setSearchTermAt, fireDue, Nat.not_le.mpr h2]
    rw [hfire]
    rw [List.getLast_cons (List.cons_ne_nil _ _)]
    exact ih t2 s2 E h3

/-- C7: for every nonempty sequence of `setSearchTerm` calls each fired
less than 300 ms after the previous one, exactly one search query
executes, and it executes for the last term set. -/
theorem debounce_collapse (e : Nat × String) (rest : List (Nat × String))
    (h : RapidFire (e :: rest)) :
    (runSetSearchTerms (e :: rest)).executed =
      [((e :: rest).getLast (List.cons_ne_nil e rest)).2] := by
  obtain ⟨t, term⟩ := e
  unfold runSetSearchTerms
  rw [List.foldl_cons]
  have h0 : setSearchTermAt initialDebounceState t term =
      { searchTerm := term, searchTimeout := some (t + debounceDelay),
        executed := [] } := by
    simp [setSearchTermAt, fireDue, initialDebounceState]
  rw [h0]
  simpa using debounce_aux rest t term [] h

/-- Witness for `debounce_collapse`: terms `"a"`, `"ab"`, `"abc"` fired
100 ms apart collapse to the single query `"abc"`. -/
theorem debounce_collapse_witness :
    RapidFire [(0, "a"), (100, "ab"), (200, "abc")] ∧
    (runSetSearchTerms [(0, "a"), (100, "ab"), (200, "abc")]).executed = ["abc"] :=
  ⟨by simp [RapidFire, debounceDelay],
    by
      have h := debounce_collapse (0, "a") [(100, "ab"), (200, "abc")]
        (by simp [RapidFire, debounceDelay])
      simpa using h⟩

/-- C8 counterexample: `getSuggestions("ro")`, its fetch going out, then
`getSuggestions("Ro")` — the two inputs differ, yet the first call's
late-arriving result still overwrites the suggestions state, because the
stale-check compares lowercased query keys and `"Ro"` re-registered the
same key `"ro"`. -/
theorem stale_suggestion_cex :
    ("ro" : String) ≠ "Ro" ∧
    (runSuggEvents [.call (some "ro"), .fire, .call (some "Ro"),
        .complete "ro" [{ kind := "tag", value := "rock" }]]).suggestions =
      [{ kind := "tag", value := "rock" }] := by
  constructor
  · decide
  · rfl

/-- C8 (amended): every suggestion request is tagged with the lowercased
input that originated it; a completed fetch is applied exactly when its
tag still equals the most recently registered tag, and discarded
otherwise — in particular a pending `"ro"` fetch does not overwrite the
suggestions once `"rock"` has been requested. -/
theorem stale_suggestion_spec :
    (∀ m key result, key ∈ m.inFlight → suggestionCompletePost m key result) ∧
    (runSuggEvents [.call (some "ro"), .fire, .call (some "rock"),
        .complete "ro" [{ kind := "tag", value := "rome" }]]).suggestions = [] := by
  constructor
  · intro m key result hin
    unfold suggestionCompletePost
    constructor
    · intro hlast
      simp [completeSuggFetch, hin, hlast]
    · intro hlast
      simp [completeSuggFetch, hin, hlast]
  · rfl

/-- Witness for the universally quantified part of `stale_suggestion_spec`. -/
theorem stale_suggestion_spec_witness :
    ("ro" : String) ∈
      ({ suggestions := [], lastSuggestionQuery := some "rock",
         suggestionsTimeout := none, inFlight := ["ro"],
         notified := [] } : SuggState).inFlight ∧
    suggestionCompletePost
      { suggestions := [], lastSuggestionQuery := some "rock",
        suggestionsTimeout := none, inFlight := ["ro"], notified := [] }
      "ro" [] :=
  ⟨by decide,
    stale_suggestion_spec.1
      { suggestions := [], lastSuggestionQuery := some "rock",
        suggestionsTimeout := none, inFlight := ["ro"], notified := [] }
      "ro" [] (by decide)⟩

/-- C10: for every input that is null/undefined or shorter than 2
characters (`input.length < 2` in the source, counting UTF-16 code units
as JavaScript `.length` does), `getSuggestions` synchronously clears the
suggestions, notifies subscribers with the empty list, schedules no
suggestion fetch (and cancels any scheduled one), and starts no network
request. -/
theorem short_input_suggestions (m : SuggState) (input : Option String)
    (h : input = none ∨ ∃ s, input = some s ∧ utf16Length s < 2) :
    shortInputPost m input := by
  unfold shortInputPost
  rcases h with rfl | ⟨s, rfl, hs⟩
  · simp [getSuggestions]
  · simp [getSuggestions, if_pos hs]

/-- Witness for `short_input_suggestions` at the one-character input
`"a"`. -/
theorem short_input_suggestions_witness :
    ((some "a" : Option String) = none ∨
      ∃ s, (some "a" : Option String) = some s ∧ utf16Length s < 2) ∧
    shortInputPost initialSuggState (some "a") :=
  ⟨Or.inr ⟨"a", rfl, by decide⟩,
    short_input_suggestions initialSuggState (some "a")
      (Or.inr ⟨"a", rfl, by decide⟩)⟩

theorem objLookup_mem {es : List (String × JSVal)} {key : String} {v : JSVal}
    (h : objLookup es key = some v) : ∃ k, (k, v) ∈ es := by
  induction es with
  | nil => simp [objLookup] at h
  | cons p rest ih =>
    obtain ⟨k', v'⟩ := p
    simp only [objLookup] at h
    split at h
    · cases h; exact ⟨k', List.mem_cons_self _ _⟩
    · obtain ⟨k, hk⟩ := ih h
      exact ⟨k, List.mem_cons_of_mem _ hk⟩

theorem nullFree_getColorLoop (n : Nat) {v : JSVal}
    (hv : nullFreeFuel n v = true) (keys : List String)
    (hsafe : keys.all avoidsBuiltinProps = true) :
    ∃ r, getColorLoop v keys = some (.ok r) := by
  induction keys generalizing n v with
  | nil => exact ⟨some v, rfl⟩
  | cons key rest ih =>
    simp only [List.all_cons, Bool.and_eq_true] at hsafe
    obtain ⟨hkey, hrest⟩ := hsafe
    cases v with
    | vstr s =>
      have hne : key ≠ "length" := fun h => absurd (h ▸ hkey) (by decide)
      exact ⟨none, by simp [getColorLoop, indexJS, hne, hkey]⟩
    | vnum m => exact ⟨none, by simp [getColorLoop, indexJS, hkey]⟩
    | vnull => cases n <;> simp [nullFreeFuel] at hv
    | vobj es =>
      cases n with
      | zero => simp [nullFreeFuel] at hv
      | succ n' =>
        simp only [nullFreeFuel] at hv
        cases hl : objLookup es key with
        | none => exact ⟨none, by simp [getColorLoop, indexJS, hl, hkey]⟩
        | some v' =>
          obtain ⟨k, hk⟩ := objLookup_mem hl
          have hv' : nullFreeFuel n' v' = true := by
            simpa using List.all_eq_true.mp hv (k, v') hk
          obtain ⟨r, hr⟩ := ih n' hv' hrest
          exact ⟨r, by simp [getColorLoop, indexJS, hl, hr]⟩

theorem missing_getColorLoop (n : Nat) {v : JSVal}
    (hv : nullFreeFuel n v = true) {keys : List String}
    (hsafe : keys.all avoidsBuiltinProps = true)
    (hm : hasMissingSegment v keys = true) :
    getColorLoop v keys = some (.ok none) := by
  induction keys generalizing n v with
  | nil => simp [hasMissingSegment] at hm
  | cons key rest ih =>
    simp only [List.all_cons, Bool.and_eq_true] at hsafe
    obtain ⟨hkey, hrest⟩ := hsafe
    cases v with
    | vstr s =>
      have hne : key ≠ "length" := fun h => absurd (h ▸ hkey) (by decide)
      simp [getColorLoop, indexJS, hne, hkey]
    | vnum m => simp [getColorLoop, indexJS, hkey]
    | vnull => cases n <;> simp [nullFreeFuel] at hv
    | vobj es =>
      cases n with
      | zero => simp [nullFreeFuel] at hv
      | succ n' =>
        simp only [nullFreeFuel] at hv
        cases hl : objLookup es key with
        | none => simp [getColorLoop, indexJS, hl, hkey]
        | some v' =>
          simp only [hasMissingSegment, hl] at hm
          obtain ⟨k, hk⟩ := objLookup_mem hl
          have hv' : nullFreeFuel n' v' = true := by
            simpa using List.all_eq_true.mp hv (k, v') hk
          simp [getColorLoop, indexJS, hl, ih n' hv' hrest hm]

/-- C9 counterexample: the path `"background.primary.length"` has a
segment missing from the nested palette of the `light` theme, yet
`getColor` does not return `undefined` — the read hits the boxed-string
`length` property of `"#f1eff1"` and the program returns the number 7. -/
theorem getColor_builtin_cex :
    hasMissingSegment lightTheme.colors
      (splitOnDot "background.primary.length") = true ∧
    getColor lightTheme "background.primary.length" =
      some (.ok (some (.vnum 7))) := by
  constructor
  · rfl
  · rfl

/-- C9 (amended): for every defined theme and every dotted path whose
segments all avoid JavaScript built-in property names (`Object.prototype`
members, `length` and the `String.prototype` members, numeric indices),
`getColor(path)` terminates without throwing and returns `undefined`
whenever any path segment is missing from the nested palette; in
particular `getColor('nonexistent.path')` returns `undefined` for every
defined theme.  For paths that do touch built-ins the guarantee fails:
see `getColor_builtin_cex`. -/
theorem getColor_safe :
    ∀ p ∈ themes, ∀ path : String,
      ((splitOnDot path).all avoidsBuiltinProps = true →
        (∃ r, getColor p.2 path = some (.ok r)) ∧
        (hasMissingSegment p.2.colors (splitOnDot path) = true →
          getColor p.2 path = some (.ok none))) ∧
      getColor p.2 "nonexistent.path" = some (.ok none) := by
  intro p hp path
  have hmem : p = ("light", lightTheme) ∨ p = ("dark", darkTheme) ∨
      p = ("ocean", oceanTheme) := by
    simpa [themes] using hp
  rcases hmem with rfl | rfl | rfl
  · exact ⟨fun hsafe => ⟨nullFree_getColorLoop 4 (by rfl) _ hsafe,
      fun hm => missing_getColorLoop 4 (by rfl) hsafe hm⟩, by rfl⟩
  · exact ⟨fun hsafe => ⟨nullFree_getColorLoop 4 (by rfl) _ hsafe,
      fun hm => missing_getColorLoop 4 (by rfl) hsafe hm⟩, by rfl⟩
  · exact ⟨fun hsafe => ⟨nullFree_getColorLoop 4 (by rfl) _ hsafe,
      fun hm => missing_getColorLoop 4 (by rfl) hsafe hm⟩, by rfl⟩

/-- Witness for `getColor_safe` at the `light` theme and the path
`"nonexistent.path"`, whose segments avoid every built-in name. -/
theorem getColor_safe_witness :
    (("light", lightTheme) ∈ themes) ∧
    (splitOnDot "nonexistent.path").all avoidsBuiltinProps = true ∧
    ((∃ r, getColor lightTheme "nonexistent.path" = some (.ok r)) ∧
      (hasMissingSegment lightTheme.colors (splitOnDot "nonexistent.path") = true →
        getColor lightTheme "nonexistent.path" = some (.ok none))) ∧
    getColor lightTheme "nonexistent.path" = some (.ok none) :=
  ⟨List.mem_cons_self _ _, by decide,
    (getColor_safe ("light", lightTheme) (List.mem_cons_self _ _)
      "nonexistent.path").1 (by decide),
    (getColor_safe ("light", lightTheme) (List.mem_cons_self _ _)
      "nonexistent.path").2⟩

end MusicLib
